import Mathlib

/-!
Verification of the PDF generation pipeline of FormGeneratorLin.

The development shallowly embeds the `PDFGenerator.generate` pipeline of the
repository's pdfkit-based generator module (layout bounds, scale derivation,
origin placement, per-field card rectangles, the signature branch, the
attachment grouping, the "Additional data" appendix) together with the
form editor's field-size clamping, and proves or refutes the specified
properties about them.

JavaScript numbers are modelled by `JNum`: a rational for every finite value,
plus `inf`, `negInf` and `nan`.  JavaScript runtime values flowing through the
pipeline are modelled by `JsValue`.  All definitions are executable.
-/

namespace FormGen

/-- Model of a JavaScript number: finite values are taken as exact rationals
(the source only adds, multiplies, divides and compares layout quantities, so
rational arithmetic tracks the intended real-number semantics), together with
the three non-finite values `Infinity`, `-Infinity`, `NaN`. -/
inductive JNum where
  | fin (q : ℚ)
  | inf
  | negInf
  | nan
deriving DecidableEq, Repr

namespace JNum

/-- JavaScript `+` on numbers. -/
def add : JNum → JNum → JNum
  | nan, _ => nan
  | _, nan => nan
  | fin a, fin b => fin (a + b)
  | fin _, inf => inf
  | inf, fin _ => inf
  | inf, inf => inf
  | fin _, negInf => negInf
  | negInf, fin _ => negInf
  | negInf, negInf => negInf
  | inf, negInf => nan
  | negInf, inf => nan

/-- JavaScript unary `-` on numbers. -/
def neg : JNum → JNum
  | nan => nan
  | fin a => fin (-a)
  | inf => negInf
  | negInf => inf

/-- JavaScript `-` on numbers. -/
def sub (a b : JNum) : JNum := a.add b.neg

/-- JavaScript `*` on numbers (`Infinity * 0` is `NaN`). -/
def mul : JNum → JNum → JNum
  | nan, _ => nan
  | _, nan => nan
  | fin a, fin b => fin (a * b)
  | fin a, inf => if a = 0 then nan else if 0 < a then inf else negInf
  | inf, fin b => if b = 0 then nan else if 0 < b then inf else negInf
  | fin a, negInf => if a = 0 then nan else if 0 < a then negInf else inf
  | negInf, fin b => if b = 0 then nan else if 0 < b then negInf else inf
  | inf, inf => inf
  | inf, negInf => negInf
  | negInf, inf => negInf
  | negInf, negInf => inf

/-- JavaScript `/` on numbers.  The model has a single zero (no `-0`), so a
finite numerator divided by zero follows the sign of the numerator as with
JavaScript's `+0`. -/
def div : JNum → JNum → JNum
  | nan, _ => nan
  | _, nan => nan
  | fin a, fin b =>
      if b = 0 then (if a = 0 then nan else if 0 < a then inf else negInf)
      else fin (a / b)
  | fin _, inf => fin 0
  | fin _, negInf => fin 0
  | inf, fin b => if 0 ≤ b then inf else negInf
  | negInf, fin b => if 0 ≤ b then negInf else inf
  | inf, inf => nan
  | inf, negInf => nan
  | negInf, inf => nan
  | negInf, negInf => nan

/-- JavaScript `Math.max` of two numbers (`NaN` absorbs). -/
def jmax : JNum → JNum → JNum
  | nan, _ => nan
  | _, nan => nan
  | inf, _ => inf
  | _, inf => inf
  | negInf, b => b
  | a, negInf => a
  | fin a, fin b => fin (if a ≤ b then b else a)

/-- JavaScript `Math.min` of two numbers (`NaN` absorbs). -/
def jmin : JNum → JNum → JNum
  | nan, _ => nan
  | _, nan => nan
  | negInf, _ => negInf
  | _, negInf => negInf
  | inf, b => b
  | a, inf => a
  | fin a, fin b => fin (if a ≤ b then a else b)

/-- Whether the number is a finite value. -/
def isFinite : JNum → Bool
  | fin _ => true
  | _ => false

/-- The rational carried by a finite value (junk, `0`, on non-finite values;
only used underneath `isFinite` hypotheses). -/
def toQ : JNum → ℚ
  | fin q => q
  | _ => 0

theorem isFinite_iff (n : JNum) : n.isFinite = true ↔ ∃ q, n = fin q := by
  cases n <;> simp [isFinite]

end JNum

/-- Model of a JavaScript runtime value as the generator sees it. -/
inductive JsValue where
  | undefined
  | null
  | bool (b : Bool)
  | num (n : JNum)
  | str (s : String)
  | arr (elems : List JsValue)
  | obj (fields : List (String × JsValue))

/-- JavaScript truthiness. -/
def JsValue.truthy : JsValue → Bool
  | .undefined => false
  | .null => false
  | .bool b => b
  | .num (.fin q) => q != 0
  | .num .nan => false
  | .num _ => true
  | .str s => s != ""
  | .arr _ => true
  | .obj _ => true

/-! Model of JavaScript `parseFloat`: skip leading whitespace, read an
optional sign, then either the literal `Infinity` or a decimal mantissa with
an optional exponent; the longest valid prefix is converted and the rest of
the string ignored; if no prefix is numeric the result is `NaN`. -/

/-- ASCII decimal digit test. -/
def isDigitChar (c : Char) : Bool := '0' ≤ c && c ≤ '9'

/-- Numeric value of a digit list read left to right. -/
def digitsToNat (ds : List Char) : ℕ :=
  ds.foldl (fun a c => 10 * a + (c.toNat - '0'.toNat)) 0

/-- The mantissa digits of a float literal: integer digits, and fractional
digits when a dot follows, returning also the unconsumed rest. -/
def splitMantissa (cs : List Char) : List Char × List Char × List Char :=
  let intPart := cs.takeWhile isDigitChar
  let rest := cs.dropWhile isDigitChar
  match rest with
  | '.' :: rest2 => (intPart, rest2.takeWhile isDigitChar, rest2.dropWhile isDigitChar)
  | _ => (intPart, [], rest)

/-- The exponent of a float literal, read from the rest after the mantissa:
`e`/`E`, an optional sign and at least one digit; anything else contributes
exponent zero (as `parseFloat` keeps only the valid prefix). -/
def parseExponent (cs : List Char) : ℤ :=
  let signed : List Char → Option (Bool × List Char) := fun l =>
    match l with
    | '+' :: l2 => some (false, l2)
    | '-' :: l2 => some (true, l2)
    | l2 => some (false, l2)
  match cs with
  | 'e' :: rest | 'E' :: rest =>
      match signed rest with
      | some (neg, rest2) =>
          let ds := rest2.takeWhile isDigitChar
          if ds.isEmpty then 0
          else if neg then -(digitsToNat ds : ℤ) else (digitsToNat ds : ℤ)
      | none => 0
  | _ => 0

/-- JavaScript `parseFloat` on the model (`JNum.nan` plays `NaN`). -/
def parseFloatJs (s : String) : JNum :=
  let cs := s.toList.dropWhile Char.isWhitespace
  let signedBody : Bool × List Char :=
    match cs with
    | '-' :: rest => (true, rest)
    | '+' :: rest => (false, rest)
    | rest => (false, rest)
  let neg := signedBody.1
  let body := signedBody.2
  if INFINITY_CHARS.isPrefixOf body then
    if neg then JNum.negInf else JNum.inf
  else
    let parts := splitMantissa body
    let intDs := parts.1
    let fracDs := parts.2.1
    if intDs.isEmpty && fracDs.isEmpty then JNum.nan
    else
      let mantissa : ℚ :=
        (digitsToNat intDs : ℚ) + (digitsToNat fracDs : ℚ) / (10 : ℚ) ^ fracDs.length
      let e : ℤ := parseExponent parts.2.2
      let magnitude : ℚ := mantissa * (10 : ℚ) ^ e
      JNum.fin (if neg then -magnitude else magnitude)
where
  INFINITY_CHARS : List Char := ['I', 'n', 'f', 'i', 'n', 'i', 't', 'y']

/-- The generator's `parseNumeric(value, fallback)`: a finite number is kept,
a string is run through `parseFloat` and kept unless that gave `NaN`, and
everything else (including non-finite numbers) falls back. -/
def parseNumeric (value : JsValue) (fallback : ℚ) : JNum :=
  match value with
  | .num (.fin q) => .fin q
  | .str s =>
      let parsed := parseFloatJs s
      if parsed = .nan then .fin fallback else parsed
  | _ => .fin fallback

theorem parseNumeric_ne_nan (value : JsValue) (fallback : ℚ) :
    parseNumeric value fallback ≠ .nan := by
  cases value with
  | num n => cases n <;> simp [parseNumeric]
  | str s =>
      simp only [parseNumeric]
      split <;> simp_all
  | _ => simp [parseNumeric]

/-! Page geometry constants of the generator module.  `CANVAS_HEIGHT_PX` is
`Math.round(CANVAS_WIDTH_PX * Math.sqrt(2))`; the rounding is evaluated to the
integer `1124`, justified by `canvas_height_rounds_sqrt2` below.  The page is
pdfkit's `'A4'` preset, `595.28 x 841.89` points. -/

def CANVAS_WIDTH_PX : ℚ := 795

def CANVAS_HEIGHT_PX : ℚ := 1124

def POINTS_PER_MM : ℚ := 72 / (254 / 10)

def PDF_MARGIN_MM : ℚ := 15

def PDF_MARGIN_PT : ℚ := PDF_MARGIN_MM * POINTS_PER_MM

def PAGE_WIDTH_PT : ℚ := 59528 / 100

def PAGE_HEIGHT_PT : ℚ := 84189 / 100

/-- The constant `1124` used for `CANVAS_HEIGHT_PX` is exactly
`Math.round(795 * Math.sqrt(2))`. -/
theorem canvas_height_rounds_sqrt2 : round ((795 : ℝ) * Real.sqrt 2) = 1124 := by
  have hsq : Real.sqrt 2 ^ 2 = 2 := Real.sq_sqrt (by norm_num)
  have hnn : (0 : ℝ) ≤ Real.sqrt 2 := Real.sqrt_nonneg 2
  have hlo : (1123.5 : ℝ) ≤ 795 * Real.sqrt 2 := by nlinarith [hsq, hnn]
  have hhi : (795 : ℝ) * Real.sqrt 2 < 1124.5 := by nlinarith [hsq, hnn]
  rw [round_eq, Int.floor_eq_iff]
  constructor
  · push_cast
    linarith
  · push_cast
    linarith

/-- A template field descriptor as the generator reads it.  `id` holds the
already-stringified `String(field.id)`; `sizeWidth` and `sizeHeight` hold the
value of the optional-chaining expression `field.size?.width ?? field.width`
(resp. height), `posX`/`posY` the value of `field.position?.x` / `...y`;
absent properties are `JsValue.undefined`. -/
structure TemplateField where
  id : String
  ftype : String
  required : Bool := false
  sizeWidth : JsValue := .undefined
  sizeHeight : JsValue := .undefined
  posX : JsValue := .undefined
  posY : JsValue := .undefined

/-- The template metadata object `meta`; absent properties are `none`. -/
structure Meta where
  templateName : Option String := none
  templateDescription : Option String := none

/-- Fallback title of the source: `meta.templateName || 'PDF Generator'`. -/
def FALLBACK_TITLE : String := "PDF Generator"

/-- Truthiness of an optional string property (JavaScript: absent and the
empty string are falsy). -/
def strOptTruthy : Option String → Bool
  | some s => s != ""
  | none => false

/-- The document title: `const title = meta.templateName || 'PDF Generator'`. -/
def title (meta : Meta) : String :=
  match meta.templateName with
  | some s => if s = "" then FALLBACK_TITLE else s
  | none => FALLBACK_TITLE

/-- `const headingBlock = title || meta.templateDescription ? 72 : 24`. -/
def headingBlock (meta : Meta) : ℚ :=
  if (title meta != "") || strOptTruthy meta.templateDescription then 72 else 24

/-- `doc.page.width - PDF_MARGIN_PT * 2`. -/
def printableWidth : ℚ := PAGE_WIDTH_PT - PDF_MARGIN_PT * 2

/-- `doc.page.height - PDF_MARGIN_PT * 2`. -/
def printableHeight : ℚ := PAGE_HEIGHT_PT - PDF_MARGIN_PT * 2

/-- `printableHeight - headingBlock`. -/
def availableHeight (meta : Meta) : ℚ := printableHeight - headingBlock meta

/-- The parsed x coordinate of a field: `parseNumeric(field.position?.x, 0)`. -/
def parsedX (field : TemplateField) : JNum := parseNumeric field.posX 0

/-- The parsed y coordinate: `parseNumeric(field.position?.y, 0)`. -/
def parsedY (field : TemplateField) : JNum := parseNumeric field.posY 0

/-- The parsed width: `parseNumeric(field.size?.width ?? field.width, 240)`. -/
def parsedWidth (field : TemplateField) : JNum := parseNumeric field.sizeWidth 240

/-- The parsed height: `parseNumeric(field.size?.height ?? field.height, 72)`. -/
def parsedHeight (field : TemplateField) : JNum := parseNumeric field.sizeHeight 72

/-- The `layoutBounds` reduce of the source: starting from the base canvas
size, take the running maximum of each field's `x + width` and `y + height`. -/
def layoutBounds (templateFields : List TemplateField) : JNum × JNum :=
  templateFields.foldl
    (fun acc field =>
      (JNum.jmax acc.1 ((parsedX field).add (parsedWidth field)),
       JNum.jmax acc.2 ((parsedY field).add (parsedHeight field))))
    (.fin CANVAS_WIDTH_PX, .fin CANVAS_HEIGHT_PX)

/-- The scale factor:
`Math.min(printableWidth / layoutBounds.width, availableHeight / layoutBounds.height)`. -/
def scale (templateFields : List TemplateField) (meta : Meta) : JNum :=
  JNum.jmin
    ((JNum.fin printableWidth).div (layoutBounds templateFields).1)
    ((JNum.fin (availableHeight meta)).div (layoutBounds templateFields).2)

/-- `const canvasWidthPt = layoutBounds.width * scale`. -/
def canvasWidthPt (templateFields : List TemplateField) (meta : Meta) : JNum :=
  (layoutBounds templateFields).1.mul (scale templateFields meta)

/-- `const originX = PDF_MARGIN_PT + (printableWidth - canvasWidthPt) / 2`. -/
def originX (templateFields : List TemplateField) (meta : Meta) : JNum :=
  (JNum.fin PDF_MARGIN_PT).add
    (((JNum.fin printableWidth).sub (canvasWidthPt templateFields meta)).div (JNum.fin 2))

/-- An axis-aligned rectangle in canvas coordinates. -/
structure Rect where
  x : JNum
  y : JNum
  width : JNum
  height : JNum
deriving DecidableEq, Repr

/-- The card rectangle the field renderer receives, straight from the parsed
position and size of the field (`const cardRect = { x, y, width, height }`). -/
def cardRect (field : TemplateField) : Rect :=
  ⟨parsedX field, parsedY field, parsedWidth field, parsedHeight field⟩

/-- The device-space right edge of a field's card after the
`doc.translate(originX, originY); doc.scale(scale, scale)` transform:
`originX + scale * (position.x + size.width)`. -/
def drawnRightEdge (templateFields : List TemplateField) (meta : Meta)
    (field : TemplateField) : JNum :=
  (originX templateFields meta).add
    ((scale templateFields meta).mul ((parsedX field).add (parsedWidth field)))

/-- All four parsed components of a field are finite. -/
def finiteParsed (field : TemplateField) : Bool :=
  (parsedX field).isFinite && (parsedY field).isFinite &&
    (parsedWidth field).isFinite && (parsedHeight field).isFinite

/-- Every field of the list has finite parsed components. -/
def allFinite (templateFields : List TemplateField) : Bool :=
  templateFields.all finiteParsed

/-- The rational `x + width` of a field with finite parsed components. -/
def xwQ (field : TemplateField) : ℚ := (parsedX field).toQ + (parsedWidth field).toQ

/-- The rational `y + height` of a field with finite parsed components. -/
def yhQ (field : TemplateField) : ℚ := (parsedY field).toQ + (parsedHeight field).toQ

/-! Helper facts about running maxima, used to characterise `layoutBounds`. -/

theorem foldl_max_le_init (l : List ℚ) (a : ℚ) : a ≤ l.foldl max a := by
  induction l generalizing a with
  | nil => simp
  | cons x xs ih => exact le_trans (le_max_left a x) (ih (max a x))

theorem foldl_max_le_mem (l : List ℚ) (a x : ℚ) (hx : x ∈ l) : x ≤ l.foldl max a := by
  induction l generalizing a with
  | nil => cases hx
  | cons y ys ih =>
      rcases List.mem_cons.mp hx with h | h
      · subst h
        exact le_trans (le_max_right a x) (foldl_max_le_init ys (max a x))
      · exact ih (max a y) h

theorem foldl_max_le_of (l : List ℚ) (a b : ℚ) (ha : a ≤ b) (h : ∀ x ∈ l, x ≤ b) :
    l.foldl max a ≤ b := by
  induction l generalizing a with
  | nil => simpa
  | cons y ys ih =>
      exact ih (max a y) (max_le ha (h y (by simp))) (fun x hx => h x (by simp [hx]))

/-- On fields with finite parsed components, the `layoutBounds` fold computes
the running rational maxima of `x + width` and `y + height`. -/
theorem layoutBounds_go (fs : List TemplateField) (a b : ℚ) (h : allFinite fs = true) :
    fs.foldl
      (fun acc field =>
        (JNum.jmax acc.1 ((parsedX field).add (parsedWidth field)),
         JNum.jmax acc.2 ((parsedY field).add (parsedHeight field))))
      (.fin a, .fin b)
    = (.fin ((fs.map xwQ).foldl max a), .fin ((fs.map yhQ).foldl max b)) := by
  induction fs generalizing a b with
  | nil => simp
  | cons f fs ih =>
      simp only [allFinite, List.all_cons, Bool.and_eq_true] at h
      obtain ⟨hf, hrest⟩ := h
      simp only [finiteParsed, Bool.and_eq_true] at hf
      obtain ⟨⟨⟨hx, hy⟩, hw⟩, hh⟩ := hf
      obtain ⟨qx, hqx⟩ := (JNum.isFinite_iff _).mp hx
      obtain ⟨qy, hqy⟩ := (JNum.isFinite_iff _).mp hy
      obtain ⟨qw, hqw⟩ := (JNum.isFinite_iff _).mp hw
      obtain ⟨qh, hqh⟩ := (JNum.isFinite_iff _).mp hh
      rw [List.foldl_cons]
      have hstep :
          (JNum.jmax (JNum.fin a, JNum.fin b).1 ((parsedX f).add (parsedWidth f)),
           JNum.jmax (JNum.fin a, JNum.fin b).2 ((parsedY f).add (parsedHeight f)))
          = (JNum.fin (max a (xwQ f)), JNum.fin (max b (yhQ f))) := by
        simp [hqx, hqy, hqw, hqh, JNum.add, JNum.jmax, xwQ, yhQ, JNum.toQ, max_def]
      rw [hstep, ih _ _ hrest]
      simp [List.map_cons, List.foldl_cons]

/-- `layoutBounds` on finitely-parsed fields, as rational maxima over the
base canvas size. -/
theorem layoutBounds_eq (fs : List TemplateField) (h : allFinite fs = true) :
    layoutBounds fs
      = (.fin ((fs.map xwQ).foldl max CANVAS_WIDTH_PX),
         .fin ((fs.map yhQ).foldl max CANVAS_HEIGHT_PX)) :=
  layoutBounds_go fs CANVAS_WIDTH_PX CANVAS_HEIGHT_PX h

/-- The title always falls back to the non-empty string `'PDF Generator'`,
so the heading block of the source is `72` for every metadata object. -/
theorem headingBlock_eq_72 (meta : Meta) : headingBlock meta = 72 := by
  unfold headingBlock title FALLBACK_TITLE
  cases meta.templateName with
  | none => simp
  | some s =>
      by_cases hs : s = "" <;> simp [hs]

/-! Sample inputs used by witnesses and counterexamples. -/

/-- Shorthand for a finite numeric JavaScript value. -/
def qv (q : ℚ) : JsValue := JsValue.num (JNum.fin q)

def TEXT_KIND : String := "text"

def ID_ONE : String := "1"

def ID_TWO : String := "2"

def ID_THREE : String := "3"

/-- A field entirely inside the base canvas: 300 x 80 at the origin. -/
def sampleInField : TemplateField := ⟨ID_ONE, TEXT_KIND, false, qv 300, qv 80, qv 0, qv 0⟩

/-- A field overflowing the base canvas width: 800 x 72 at the origin. -/
def wideField : TemplateField := ⟨ID_TWO, TEXT_KIND, false, qv 800, qv 72, qv 0, qv 0⟩

/-- A field far below the editor's minimum size: 10 x 5, position absent. -/
def tinyField : TemplateField :=
  ⟨ID_THREE, TEXT_KIND, false, qv 10, qv 5, JsValue.undefined, JsValue.undefined⟩

/-- Modelled from the claim's wording (C1): a heading block of 72pt when a
template name or description is present and 24pt otherwise, subtracted from
the vertical printable area; to be compared against the source's `scale`. -/
def claimHeadingBlock (meta : Meta) : ℚ :=
  if strOptTruthy meta.templateName || strOptTruthy meta.templateDescription then 72 else 24

/-- Modelled from the claim's wording (C1): the scale as the claim states it,
with the 72pt/24pt heading-block rule. -/
def claimScale (templateFields : List TemplateField) (meta : Meta) : JNum :=
  JNum.jmin
    ((JNum.fin printableWidth).div (layoutBounds templateFields).1)
    ((JNum.fin (printableHeight - claimHeadingBlock meta)).div (layoutBounds templateFields).2)

/-- When the layout bounds stay at the base canvas size, the scale resolves
to the height ratio `(printableHeight - 72) / 1124` (the smaller of the two
ratios). -/
theorem scale_of_base_bounds (fs : List TemplateField) (meta : Meta)
    (h : layoutBounds fs = (.fin CANVAS_WIDTH_PX, .fin CANVAS_HEIGHT_PX)) :
    scale fs meta = .fin ((printableHeight - 72) / CANVAS_HEIGHT_PX) := by
  unfold scale
  rw [h]
  have hA : availableHeight meta = printableHeight - 72 := by
    unfold availableHeight
    rw [headingBlock_eq_72]
  rw [hA]
  simp only [JNum.div, JNum.jmin]
  norm_num [CANVAS_WIDTH_PX, CANVAS_HEIGHT_PX, printableWidth, printableHeight,
    PAGE_WIDTH_PT, PAGE_HEIGHT_PT, PDF_MARGIN_PT, PDF_MARGIN_MM, POINTS_PER_MM]

/-- The empty template's scale. -/
theorem scale_nil (meta : Meta) :
    scale [] meta = .fin ((printableHeight - 72) / CANVAS_HEIGHT_PX) :=
  scale_of_base_bounds [] meta rfl

/-- The claimed scale on the empty template with no name and no description
resolves to the width ratio, since only 24pt would be subtracted. -/
theorem claimScale_nil :
    claimScale [] ⟨none, none⟩ = .fin (printableWidth / CANVAS_WIDTH_PX) := by
  unfold claimScale
  have hlb : layoutBounds ([] : List TemplateField)
      = (.fin CANVAS_WIDTH_PX, .fin CANVAS_HEIGHT_PX) := rfl
  rw [hlb]
  simp only [JNum.div, JNum.jmin]
  norm_num [claimHeadingBlock, strOptTruthy, CANVAS_WIDTH_PX, CANVAS_HEIGHT_PX,
    printableWidth, printableHeight, PAGE_WIDTH_PT, PAGE_HEIGHT_PT, PDF_MARGIN_PT,
    PDF_MARGIN_MM, POINTS_PER_MM]

/-- C1 (counterexample): with neither a template name nor a description the
source still reserves a 72pt heading block, because `title` falls back to the
non-empty string `'PDF Generator'`; the computed scale therefore differs from
the claimed scale, which would use 24pt. -/
theorem headingBlock_claim_counterexample :
    scale [] ⟨none, none⟩ ≠ claimScale [] ⟨none, none⟩ ∧
    headingBlock ⟨none, none⟩ = 72 ∧ claimHeadingBlock ⟨none, none⟩ = 24 := by
  refine ⟨?_, headingBlock_eq_72 _, by simp [claimHeadingBlock, strOptTruthy]⟩
  rw [scale_nil, claimScale_nil]
  simp only [ne_eq, JNum.fin.injEq]
  norm_num [printableWidth, printableHeight, PAGE_WIDTH_PT, PAGE_HEIGHT_PT,
    PDF_MARGIN_PT, PDF_MARGIN_MM, POINTS_PER_MM, CANVAS_WIDTH_PX, CANVAS_HEIGHT_PX]

/-- C1 (amended): the scale factor equals
`min(printableWidth / boundsWidth, printableAvailableHeight / boundsHeight)`
with both printable dimensions equal to the A4 page size minus a 15mm margin
on each side, and with the heading block height always 72pt (the title falls
back to `'PDF Generator'`, so the 24pt branch is unreachable). -/
theorem scale_heading_always_72 (templateFields : List TemplateField) (meta : Meta) :
    headingBlock meta = 72 ∧
    scale templateFields meta =
      JNum.jmin
        ((JNum.fin (PAGE_WIDTH_PT - 2 * PDF_MARGIN_PT)).div (layoutBounds templateFields).1)
        ((JNum.fin (PAGE_HEIGHT_PT - 2 * PDF_MARGIN_PT - 72)).div
          (layoutBounds templateFields).2) := by
  refine ⟨headingBlock_eq_72 meta, ?_⟩
  have h1 : printableWidth = PAGE_WIDTH_PT - 2 * PDF_MARGIN_PT := by
    unfold printableWidth
    ring
  have h2 : availableHeight meta = PAGE_HEIGHT_PT - 2 * PDF_MARGIN_PT - 72 := by
    unfold availableHeight printableHeight
    rw [headingBlock_eq_72]
    ring
  unfold scale
  rw [h1, h2]

/-- C2: for every list of template fields with numerically-parsed components,
the layout bounds are the smallest rectangle with top-left at the origin that
contains every field's `(position.x + size.width, position.y + size.height)`,
floored at the base canvas size 795 x 1124; a template with zero fields
yields exactly the base canvas size. -/
theorem layoutBounds_smallest_rect (templateFields : List TemplateField)
    (h : allFinite templateFields = true) :
    (∃ W H, layoutBounds templateFields = (.fin W, .fin H) ∧
      CANVAS_WIDTH_PX ≤ W ∧ CANVAS_HEIGHT_PX ≤ H ∧
      (∀ f ∈ templateFields, xwQ f ≤ W ∧ yhQ f ≤ H) ∧
      (∀ W' H', CANVAS_WIDTH_PX ≤ W' → CANVAS_HEIGHT_PX ≤ H' →
        (∀ f ∈ templateFields, xwQ f ≤ W' ∧ yhQ f ≤ H') → W ≤ W' ∧ H ≤ H')) ∧
    layoutBounds ([] : List TemplateField) = (.fin CANVAS_WIDTH_PX, .fin CANVAS_HEIGHT_PX) := by
  refine ⟨⟨_, _, layoutBounds_eq templateFields h, foldl_max_le_init _ _,
    foldl_max_le_init _ _, ?_, ?_⟩, rfl⟩
  · intro f hf
    exact ⟨foldl_max_le_mem _ _ _ (List.mem_map_of_mem _ hf),
      foldl_max_le_mem _ _ _ (List.mem_map_of_mem _ hf)⟩
  · intro W' H' hW hH hcont
    constructor
    · refine foldl_max_le_of _ _ _ hW ?_
      intro x hx
      obtain ⟨f, hf, rfl⟩ := List.mem_map.mp hx
      exact (hcont f hf).1
    · refine foldl_max_le_of _ _ _ hH ?_
      intro x hx
      obtain ⟨f, hf, rfl⟩ := List.mem_map.mp hx
      exact (hcont f hf).2

/-- C2 (witness): the bounds property evaluated on a one-field template. -/
theorem layoutBounds_smallest_rect_witness :
    allFinite [sampleInField] = true ∧
    ((∃ W H, layoutBounds [sampleInField] = (.fin W, .fin H) ∧
      CANVAS_WIDTH_PX ≤ W ∧ CANVAS_HEIGHT_PX ≤ H ∧
      (∀ f ∈ [sampleInField], xwQ f ≤ W ∧ yhQ f ≤ H) ∧
      (∀ W' H', CANVAS_WIDTH_PX ≤ W' → CANVAS_HEIGHT_PX ≤ H' →
        (∀ f ∈ [sampleInField], xwQ f ≤ W' ∧ yhQ f ≤ H') → W ≤ W' ∧ H ≤ H')) ∧
    layoutBounds ([] : List TemplateField) = (.fin CANVAS_WIDTH_PX, .fin CANVAS_HEIGHT_PX)) :=
  ⟨by decide, layoutBounds_smallest_rect [sampleInField] (by decide)⟩

/-- C3 (counterexample): a template whose single field lies entirely inside
the base canvas gets a scale different from 1.0 (the canvas is fitted into
the smaller printable area, giving roughly 0.609). -/
theorem scale_not_one_counterexample :
    (xwQ sampleInField ≤ CANVAS_WIDTH_PX ∧ yhQ sampleInField ≤ CANVAS_HEIGHT_PX) ∧
    scale [sampleInField] ⟨none, none⟩ ≠ .fin 1 := by
  constructor
  · constructor <;>
      norm_num [xwQ, yhQ, sampleInField, parsedX, parsedY, parsedWidth, parsedHeight,
        parseNumeric, qv, JNum.toQ, CANVAS_WIDTH_PX, CANVAS_HEIGHT_PX]
  · have hb : layoutBounds [sampleInField] = (.fin CANVAS_WIDTH_PX, .fin CANVAS_HEIGHT_PX) := by
      norm_num [layoutBounds, sampleInField, parsedX, parsedY, parsedWidth, parsedHeight,
        parseNumeric, qv, JNum.add, JNum.jmax, CANVAS_WIDTH_PX, CANVAS_HEIGHT_PX]
    rw [scale_of_base_bounds _ _ hb]
    simp only [ne_eq, JNum.fin.injEq]
    norm_num [printableHeight, PAGE_HEIGHT_PT, PDF_MARGIN_PT, PDF_MARGIN_MM,
      POINTS_PER_MM, CANVAS_HEIGHT_PX]

/-- C3 (amended): for every template whose fields all lie inside the base
795 x 1124 canvas, the scale equals the fixed constant
`(printableHeight - 72) / 1124` (about 0.609, the same as for an empty
template) — not 1.0. -/
theorem scale_inCanvas_constant (templateFields : List TemplateField) (meta : Meta)
    (h : allFinite templateFields = true)
    (hin : ∀ f ∈ templateFields, xwQ f ≤ CANVAS_WIDTH_PX ∧ yhQ f ≤ CANVAS_HEIGHT_PX) :
    scale templateFields meta = .fin ((printableHeight - 72) / CANVAS_HEIGHT_PX) ∧
    scale templateFields meta ≠ .fin 1 := by
  have hb : layoutBounds templateFields = (.fin CANVAS_WIDTH_PX, .fin CANVAS_HEIGHT_PX) := by
    rw [layoutBounds_eq _ h]
    have hW : (templateFields.map xwQ).foldl max CANVAS_WIDTH_PX = CANVAS_WIDTH_PX := by
      refine le_antisymm (foldl_max_le_of _ _ _ le_rfl ?_) (foldl_max_le_init _ _)
      intro x hx
      obtain ⟨f, hf, rfl⟩ := List.mem_map.mp hx
      exact (hin f hf).1
    have hH : (templateFields.map yhQ).foldl max CANVAS_HEIGHT_PX = CANVAS_HEIGHT_PX := by
      refine le_antisymm (foldl_max_le_of _ _ _ le_rfl ?_) (foldl_max_le_init _ _)
      intro x hx
      obtain ⟨f, hf, rfl⟩ := List.mem_map.mp hx
      exact (hin f hf).2
    rw [hW, hH]
  have heq := scale_of_base_bounds _ meta hb
  refine ⟨heq, ?_⟩
  rw [heq]
  simp only [ne_eq, JNum.fin.injEq]
  norm_num [printableHeight, PAGE_HEIGHT_PT, PDF_MARGIN_PT, PDF_MARGIN_MM,
    POINTS_PER_MM, CANVAS_HEIGHT_PX]

/-- C3 (witness): the amended statement evaluated on a one-field in-canvas
template. -/
theorem scale_inCanvas_constant_witness :
    allFinite [sampleInField] = true ∧
    (scale [sampleInField] ⟨none, none⟩ = .fin ((printableHeight - 72) / CANVAS_HEIGHT_PX) ∧
     scale [sampleInField] ⟨none, none⟩ ≠ .fin 1) :=
  ⟨by decide, scale_inCanvas_constant [sampleInField] ⟨none, none⟩ (by decide) (by
    intro f hf
    rw [List.mem_singleton] at hf
    subst hf
    constructor <;>
      norm_num [xwQ, yhQ, sampleInField, parsedX, parsedY, parsedWidth, parsedHeight,
        parseNumeric, qv, JNum.toQ, CANVAS_WIDTH_PX, CANVAS_HEIGHT_PX])⟩

/-- C4 (counterexample): a field whose `x + width` is 800 — exceeding the
base canvas width 795 — still yields exactly the same scale as an in-canvas
template, because the height ratio stays the binding constraint; the claimed
strict decrease is false. -/
theorem scale_overflow_not_strict_counterexample :
    CANVAS_WIDTH_PX < xwQ wideField ∧
    (xwQ sampleInField ≤ CANVAS_WIDTH_PX ∧ yhQ sampleInField ≤ CANVAS_HEIGHT_PX) ∧
    scale [wideField] ⟨none, none⟩ = scale [sampleInField] ⟨none, none⟩ := by
  refine ⟨?_, ⟨?_, ?_⟩, ?_⟩
  · norm_num [xwQ, wideField, parsedX, parsedWidth, parseNumeric, qv, JNum.toQ,
      CANVAS_WIDTH_PX]
  · norm_num [xwQ, sampleInField, parsedX, parsedWidth, parseNumeric, qv, JNum.toQ,
      CANVAS_WIDTH_PX]
  · norm_num [yhQ, sampleInField, parsedY, parsedHeight, parseNumeric, qv, JNum.toQ,
      CANVAS_HEIGHT_PX]
  · have hb2 : layoutBounds [sampleInField]
        = (.fin CANVAS_WIDTH_PX, .fin CANVAS_HEIGHT_PX) := by
      norm_num [layoutBounds, sampleInField, parsedX, parsedY, parsedWidth, parsedHeight,
        parseNumeric, qv, JNum.add, JNum.jmax, CANVAS_WIDTH_PX, CANVAS_HEIGHT_PX]
    have hb1 : layoutBounds [wideField] = (.fin 800, .fin CANVAS_HEIGHT_PX) := by
      norm_num [layoutBounds, wideField, parsedX, parsedY, parsedWidth, parsedHeight,
        parseNumeric, qv, JNum.add, JNum.jmax, CANVAS_WIDTH_PX, CANVAS_HEIGHT_PX]
    rw [scale_of_base_bounds _ _ hb2]
    unfold scale
    rw [hb1]
    have hA : availableHeight ⟨none, none⟩ = printableHeight - 72 := by
      unfold availableHeight
      rw [headingBlock_eq_72]
    rw [hA]
    simp only [JNum.div, JNum.jmin]
    norm_num [printableWidth, printableHeight, PAGE_WIDTH_PT, PAGE_HEIGHT_PT,
      PDF_MARGIN_PT, PDF_MARGIN_MM, POINTS_PER_MM, CANVAS_HEIGHT_PX]

/-- C4 (amended): for every field of a finitely-parsed template, the drawn
right edge `originX + scale * (position.x + size.width)` never exceeds the
printable region `pageWidth - margin`; and the scale is at most — though not
necessarily strictly below — the in-canvas scale (both the width ratio at
bounds 795 and the binding height ratio at bounds 1124). -/
theorem rightEdge_within_printable (templateFields : List TemplateField) (meta : Meta)
    (field : TemplateField) (h : allFinite templateFields = true)
    (hf : field ∈ templateFields) :
    (∃ r, drawnRightEdge templateFields meta field = .fin r ∧
      r ≤ PAGE_WIDTH_PT - PDF_MARGIN_PT) ∧
    (∃ s, scale templateFields meta = .fin s ∧
      s ≤ printableWidth / CANVAS_WIDTH_PX ∧
      s ≤ (printableHeight - 72) / CANVAS_HEIGHT_PX) := by
  have hb : layoutBounds templateFields
      = (.fin ((templateFields.map xwQ).foldl max CANVAS_WIDTH_PX),
         .fin ((templateFields.map yhQ).foldl max CANVAS_HEIGHT_PX)) :=
    layoutBounds_eq _ h
  set W := (templateFields.map xwQ).foldl max CANVAS_WIDTH_PX with hWeq
  set H := (templateFields.map yhQ).foldl max CANVAS_HEIGHT_PX with hHeq
  have hCW0 : (0 : ℚ) < CANVAS_WIDTH_PX := by norm_num [CANVAS_WIDTH_PX]
  have hCH0 : (0 : ℚ) < CANVAS_HEIGHT_PX := by norm_num [CANVAS_HEIGHT_PX]
  have hWc : CANVAS_WIDTH_PX ≤ W := foldl_max_le_init _ _
  have hHc : CANVAS_HEIGHT_PX ≤ H := foldl_max_le_init _ _
  have hW0 : (0 : ℚ) < W := lt_of_lt_of_le hCW0 hWc
  have hH0 : (0 : ℚ) < H := lt_of_lt_of_le hCH0 hHc
  have hxw : xwQ field ≤ W := foldl_max_le_mem _ _ _ (List.mem_map_of_mem _ hf)
  have hA : availableHeight meta = printableHeight - 72 := by
    unfold availableHeight
    rw [headingBlock_eq_72]
  have hpw : (0 : ℚ) < printableWidth := by
    norm_num [printableWidth, PAGE_WIDTH_PT, PDF_MARGIN_PT, PDF_MARGIN_MM, POINTS_PER_MM]
  have hah : (0 : ℚ) < printableHeight - 72 := by
    norm_num [printableHeight, PAGE_HEIGHT_PT, PDF_MARGIN_PT, PDF_MARGIN_MM, POINTS_PER_MM]
  have hs : scale templateFields meta
      = .fin (if printableWidth / W ≤ (printableHeight - 72) / H
          then printableWidth / W else (printableHeight - 72) / H) := by
    unfold scale
    rw [hb, hA]
    simp [JNum.div, JNum.jmin, ne_of_gt hW0, ne_of_gt hH0]
  set s : ℚ := if printableWidth / W ≤ (printableHeight - 72) / H
      then printableWidth / W else (printableHeight - 72) / H with hseq
  have hs1 : s ≤ printableWidth / W := by
    rw [hseq]
    split
    · exact le_rfl
    · next hcond => exact le_of_not_le hcond
  have hs2 : s ≤ (printableHeight - 72) / H := by
    rw [hseq]
    split
    · next hcond => exact le_trans le_rfl hcond
    · exact le_rfl
  have hs0 : (0 : ℚ) ≤ s := by
    rw [hseq]
    split
    · exact div_nonneg hpw.le hW0.le
    · exact div_nonneg hah.le hH0.le
  have hsW : s * W ≤ printableWidth := (le_div_iff₀ hW0).mp hs1
  have hfp : finiteParsed field = true := by
    simp only [allFinite, List.all_eq_true] at h
    exact h field hf
  simp only [finiteParsed, Bool.and_eq_true] at hfp
  obtain ⟨⟨⟨hx, _⟩, hw⟩, _⟩ := hfp
  obtain ⟨qx, hqx⟩ := (JNum.isFinite_iff _).mp hx
  obtain ⟨qw, hqw⟩ := (JNum.isFinite_iff _).mp hw
  have hxwq : xwQ field = qx + qw := by simp [xwQ, hqx, hqw, JNum.toQ]
  have hre : drawnRightEdge templateFields meta field
      = .fin (PDF_MARGIN_PT + (printableWidth - W * s) / 2 + s * (qx + qw)) := by
    unfold drawnRightEdge originX canvasWidthPt
    rw [hb, hs, hqx, hqw]
    simp only [JNum.mul, JNum.sub, JNum.neg, JNum.add, JNum.div]
    norm_num
    ring_nf
  refine ⟨⟨_, hre, ?_⟩, ⟨s, hs, ?_, ?_⟩⟩
  · have hsxw : s * (qx + qw) ≤ s * W :=
      mul_le_mul_of_nonneg_left (hxwq ▸ hxw) hs0
    have hWs : W * s = s * W := mul_comm W s
    have hpweq : printableWidth = PAGE_WIDTH_PT - 2 * PDF_MARGIN_PT := by
      unfold printableWidth
      ring
    linarith [hsW, hsxw, hWs, hpweq]
  · exact le_trans hs1 (div_le_div_of_nonneg_left hpw.le hCW0 hWc)
  · exact le_trans hs2 (div_le_div_of_nonneg_left hah.le hCH0 hHc)

/-- C4 (witness): the amended statement evaluated on the one-field template
whose field overflows the canvas width. -/
theorem rightEdge_within_printable_witness :
    allFinite [wideField] = true ∧ wideField ∈ [wideField] ∧
    ((∃ r, drawnRightEdge [wideField] ⟨none, none⟩ wideField = .fin r ∧
      r ≤ PAGE_WIDTH_PT - PDF_MARGIN_PT) ∧
    (∃ s, scale [wideField] ⟨none, none⟩ = .fin s ∧
      s ≤ printableWidth / CANVAS_WIDTH_PX ∧
      s ≤ (printableHeight - 72) / CANVAS_HEIGHT_PX)) :=
  ⟨by decide, List.mem_singleton.mpr rfl,
    rightEdge_within_printable [wideField] ⟨none, none⟩ wideField (by decide)
      (List.mem_singleton.mpr rfl)⟩

/-! String rendering of JavaScript values, as used by `safeText`, the
attachment keys and the appendix.  The decimal rendering of non-integral
numbers (and JSON escaping beyond quotes and backslashes) is abstracted —
no verified property depends on those renderings, only on which strings are
produced for the value shapes the claims exercise. -/

def UNDEFINED_STR : String := "undefined"

def NULL_STR : String := "null"

def TRUE_STR : String := "true"

def FALSE_STR : String := "false"

def INFINITY_STR : String := "Infinity"

def NEG_INFINITY_STR : String := "-Infinity"

def NAN_STR : String := "NaN"

def OBJECT_OBJECT_STR : String := "[object Object]"

def COMMA_STR : String := ","

def COMMA_SPACE : String := ", "

def QUOTE_STR : String := "\""

def LBRACK_STR : String := "["

def RBRACK_STR : String := "]"

def LBRACE_STR : String := "\x7b"

def RBRACE_STR : String := "\x7d"

def COLON_STR : String := ":"

def SLASH_STR : String := "/"

def YES_STR : String := "Yes"

def NO_STR : String := "No"

/-- Decimal rendering of a rational: exact for integers (the only case the
claims evaluate); non-integral values are rendered as `num/den`, an admitted
abstraction of JavaScript's float printing. -/
def qToString (q : ℚ) : String :=
  if q.den = 1 then toString q.num else toString q.num ++ SLASH_STR ++ toString q.den

/-- `String(n)` for a JavaScript number. -/
def jsNumToString : JNum → String
  | .fin q => qToString q
  | .inf => INFINITY_STR
  | .negInf => NEG_INFINITY_STR
  | .nan => NAN_STR

/-- `String(value)`.  For arrays, JavaScript joins the element renderings
with commas (the model renders null/undefined elements by name instead of as
empty strings — an admitted abstraction); plain objects render as
`[object Object]`. -/
def jsToString : JsValue → String
  | .undefined => UNDEFINED_STR
  | .null => NULL_STR
  | .bool b => if b then TRUE_STR else FALSE_STR
  | .num n => jsNumToString n
  | .str s => s
  | .arr xs => String.intercalate COMMA_STR (xs.attach.map (fun x => jsToString x.1))
  | .obj _ => OBJECT_OBJECT_STR
decreasing_by
  simp_wf
  have := List.sizeOf_lt_of_mem x.2
  omega

/-- Minimal JSON string escaping (quotes and backslashes). -/
def escapeJson (s : String) : String :=
  String.mk (s.toList.foldr
    (fun c acc =>
      (if c = '"' then ['\\', '"'] else if c = '\\' then ['\\', '\\'] else [c]) ++ acc)
    [])

/-- Whether a value is `undefined`. -/
def isUndefinedVal : JsValue → Bool
  | .undefined => true
  | _ => false

/-- `JSON.stringify(value)`: undefined-valued object properties are skipped,
undefined array elements and non-finite numbers become `null`. -/
def jsonStringify : JsValue → String
  | .undefined => NULL_STR
  | .null => NULL_STR
  | .bool b => if b then TRUE_STR else FALSE_STR
  | .num (.fin q) => qToString q
  | .num _ => NULL_STR
  | .str s => QUOTE_STR ++ escapeJson s ++ QUOTE_STR
  | .arr xs =>
      LBRACK_STR ++
        String.intercalate COMMA_STR (xs.attach.map (fun x => jsonStringify x.1)) ++
        RBRACK_STR
  | .obj fields =>
      LBRACE_STR ++
        String.intercalate COMMA_STR
          ((fields.filter (fun kv => !isUndefinedVal kv.2)).attach.map
            (fun kv =>
              QUOTE_STR ++ escapeJson kv.1.1 ++ QUOTE_STR ++ COLON_STR ++
                jsonStringify kv.1.2)) ++
        RBRACE_STR
decreasing_by
  · simp_wf
    have := List.sizeOf_lt_of_mem x.2
    omega
  · simp_wf
    have h1 := List.sizeOf_lt_of_mem (List.mem_of_mem_filter kv.2)
    have h2 : sizeOf kv.1.2 < sizeOf kv.1 := by
      obtain ⟨⟨a, b⟩, hk⟩ := kv
      simp only [Prod.mk.sizeOf_spec]
      omega
    omega

/-- `formatBoolean`: `value ? 'Yes' : 'No'`. -/
def formatBoolean (value : Bool) : String := if value then YES_STR else NO_STR

def ORIGINALNAME_KEY : String := "originalname"

def NAME_KEY : String := "name"

def PATH_KEY : String := "path"

/-- Property lookup on a modelled object (`undefined` when absent). -/
def getProp (fields : List (String × JsValue)) (key : String) : JsValue :=
  match fields.find? (fun kv => kv.1 == key) with
  | some kv => kv.2
  | none => .undefined

/-- One item of `formatArray`'s map: strings pass through; objects (and
arrays, which are objects to `typeof`) use
`item.originalname || item.name || item.path || JSON.stringify(item)`;
anything else is `String(item)`.  Falsy items never reach this function
(they are filtered out first). -/
def formatItem : JsValue → String
  | .str s => s
  | .obj fields =>
      if (getProp fields ORIGINALNAME_KEY).truthy then jsToString (getProp fields ORIGINALNAME_KEY)
      else if (getProp fields NAME_KEY).truthy then jsToString (getProp fields NAME_KEY)
      else if (getProp fields PATH_KEY).truthy then jsToString (getProp fields PATH_KEY)
      else jsonStringify (.obj fields)
  | .arr xs => jsonStringify (.arr xs)
  | v => jsToString v

/-- `formatArray`: keep truthy items, render each, join with `', '`. -/
def formatArray (arr : List JsValue) : String :=
  String.intercalate COMMA_SPACE ((arr.filter JsValue.truthy).map formatItem)

/-- The generator's `safeText`: empty for `undefined`/`null`/`''`,
`Yes`/`No` for booleans, identity on strings, `formatArray` on arrays,
`JSON.stringify` on objects, `String(value)` otherwise. -/
def safeText (value : JsValue) : String :=
  match value with
  | .undefined => ""
  | .null => ""
  | .str s => s
  | .bool b => formatBoolean b
  | .arr xs => formatArray xs
  | .obj fields => jsonStringify (.obj fields)
  | .num n => jsNumToString n

/-! The signature branch of the field renderer. -/

/-- JavaScript `String.prototype.startsWith`: prefix test on the characters
(executable model of the library routine). -/
def strStartsWith (s p : String) : Bool := p.toList.isPrefixOf s.toList

def IMAGE_DATA_URI : String := "data:image"

/-- What the signature box ends up showing. -/
inductive SignatureRender where
  | embeddedImage
  | embedFailedLogged
  | placeholder
deriving DecidableEq, Repr

/-- Outcome record of the signature branch: what was rendered, whether a
base64 decode was attempted, and whether the branch aborted the call. -/
structure SignatureResult where
  render : SignatureRender
  attemptedDecode : Bool
  fatal : Bool
deriving DecidableEq, Repr

/-- The signature branch of `templateFields.forEach`:
`signatureData && signatureData.startsWith('data:image')` selects the image
path, whose `try/catch` logs a decode/embed failure and continues (modelled
by the `decodeOk` oracle for `Buffer.from` + `doc.image`); otherwise the
`'Sign inside the box'` placeholder is drawn.  No path is fatal. -/
def renderSignature (signatureData : Option String) (decodeOk : Bool) : SignatureResult :=
  match signatureData with
  | some s =>
      if (s != "") && strStartsWith s IMAGE_DATA_URI then
        if decodeOk then ⟨.embeddedImage, true, false⟩
        else ⟨.embedFailedLogged, true, false⟩
      else ⟨.placeholder, false, false⟩
  | none => ⟨.placeholder, false, false⟩

/-- The branch condition as a predicate on the optional signature value. -/
def sigStartsImage : Option String → Bool
  | some s => (s != "") && strStartsWith s IMAGE_DATA_URI
  | none => false

/-- C5: a signature value that does not carry the `data:image` prefix
(plain text, empty, or absent) renders the placeholder and never attempts a
decode; a prefixed value whose decode/embed fails is caught and logged,
leaves the box without an image, and never makes the call fatal. -/
theorem signature_placeholder_no_decode (signatureData : Option String) (decodeOk : Bool) :
    (sigStartsImage signatureData = false →
      renderSignature signatureData decodeOk
        = ⟨.placeholder, false, false⟩) ∧
    (sigStartsImage signatureData = true → decodeOk = false →
      renderSignature signatureData decodeOk
        = ⟨.embedFailedLogged, true, false⟩) ∧
    (renderSignature signatureData decodeOk).fatal = false := by
  refine ⟨?_, ?_, ?_⟩
  · intro hns
    cases signatureData with
    | none => rfl
    | some s =>
        simp only [sigStartsImage] at hns
        simp [renderSignature, hns]
  · intro hst hdec
    cases signatureData with
    | none => simp [sigStartsImage] at hst
    | some s =>
        simp only [sigStartsImage] at hst
        simp [renderSignature, hst, hdec]
  · cases signatureData with
    | none => rfl
    | some s =>
        simp only [renderSignature]
        split
        · split <;> rfl
        · rfl

def PLAIN_SIGNATURE : String := "John Hancock"

def BROKEN_DATA_URI : String := "data:image/png;base64,@@@@"

/-- C5 (witness): a plain-text signature value renders the placeholder with
no decode attempt; a prefixed but undecodable value is logged and non-fatal. -/
theorem signature_placeholder_no_decode_witness :
    renderSignature (some PLAIN_SIGNATURE) true
      = ⟨.placeholder, false, false⟩ ∧
    renderSignature (some BROKEN_DATA_URI) false
      = ⟨.embedFailedLogged, true, false⟩ :=
  ⟨(signature_placeholder_no_decode (some PLAIN_SIGNATURE) true).1 (by decide),
   (signature_placeholder_no_decode (some BROKEN_DATA_URI) false).2.1 (by decide) rfl⟩

/-! The `'Additional data'` appendix. -/

def FILES_KEY : String := "files"

def RESERVED_SIGNATURE_KEY : String := "signature_"

/-- JavaScript word character (`\w`): ASCII letter, digit or underscore. -/
def isWordChar (c : Char) : Bool :=
  ('a' ≤ c && c ≤ 'z') || ('A' ≤ c && c ≤ 'Z') || ('0' ≤ c && c ≤ '9') || c == '_'

/-- The `/\b\w/g` upper-casing pass: a word character is upper-cased exactly
when not preceded by a word character. -/
def titleCaseGo : Bool → List Char → List Char
  | _, [] => []
  | prevWord, c :: rest =>
      (if isWordChar c && !prevWord then c.toUpper else c) :: titleCaseGo (isWordChar c) rest

/-- The appendix label of a key:
`key.replace(/_/g, ' ').replace(/\b\w/g, (letter) => letter.toUpperCase())`. -/
def labelOf (key : String) : String :=
  String.mk (titleCaseGo false (key.toList.map (fun c => if c == '_' then ' ' else c)))

/-- `const serialisedData = { ...formData }; delete serialisedData.files`. -/
def serialisedData (formData : List (String × JsValue)) : List (String × JsValue) :=
  formData.filter (fun kv => kv.1 != FILES_KEY)

/-- The keys collected into `renderedKeys` by the field loop — every field's
`String(field.id)`, added unconditionally before the type dispatch. -/
def renderedKeys (templateFields : List TemplateField) : List String :=
  templateFields.map (fun f => f.id)

def LABEL_SEP : String := ": "

/-- The `'Additional data'` appendix: the entries of `serialisedData` whose
key is in no field's `renderedKeys` and does not start with `'signature_'`,
each rendered as `Label: value`. -/
def additionalEntries (formData : List (String × JsValue))
    (templateFields : List TemplateField) : List (String × String) :=
  ((serialisedData formData).filter
      (fun kv => !(renderedKeys templateFields).contains kv.1
        && !(strStartsWith kv.1 RESERVED_SIGNATURE_KEY))).map
    (fun kv => (kv.1, labelOf kv.1 ++ LABEL_SEP ++ safeText kv.2))

/-- A list does not `contains` an element exactly when it is not a member. -/
theorem contains_false_iff (l : List String) (a : String) :
    (l.contains a = false) ↔ a ∉ l := by
  rw [Bool.eq_false_iff]
  exact not_congr List.elem_iff

/-- Membership characterisation of the appendix. -/
theorem mem_additionalEntries (formData : List (String × JsValue))
    (templateFields : List TemplateField) (p : String × String) :
    p ∈ additionalEntries formData templateFields ↔
      ∃ v, (p.1, v) ∈ formData ∧ p.1 ≠ FILES_KEY ∧
        p.1 ∉ renderedKeys templateFields ∧
        strStartsWith p.1 RESERVED_SIGNATURE_KEY = false ∧
        p.2 = labelOf p.1 ++ LABEL_SEP ++ safeText v := by
  obtain ⟨k, lbl⟩ := p
  dsimp only
  unfold additionalEntries serialisedData
  rw [List.mem_map]
  constructor
  · rintro ⟨⟨k', v'⟩, hin, heq⟩
    rw [List.mem_filter] at hin
    obtain ⟨hin2, hcond⟩ := hin
    rw [List.mem_filter] at hin2
    obtain ⟨hmem, hkf⟩ := hin2
    obtain ⟨hk, hl⟩ := Prod.ext_iff.mp heq
    simp only at hk hl
    subst hk
    rw [Bool.and_eq_true, Bool.not_eq_true', Bool.not_eq_true'] at hcond
    obtain ⟨hc1, hc2⟩ := hcond
    exact ⟨v', hmem, bne_iff_ne.mp hkf, (contains_false_iff _ _).mp hc1, hc2, hl.symm⟩
  · rintro ⟨v, hmem, hkf, hnin, hst, rfl⟩
    refine ⟨⟨k, v⟩, ?_, rfl⟩
    rw [List.mem_filter]
    refine ⟨?_, ?_⟩
    · rw [List.mem_filter]
      exact ⟨hmem, bne_iff_ne.mpr hkf⟩
    · rw [Bool.and_eq_true, Bool.not_eq_true', Bool.not_eq_true']
      exact ⟨(contains_false_iff _ _).mpr hnin, hst⟩

/-- Key-level characterisation of the appendix. -/
theorem mem_additionalKeys (formData : List (String × JsValue))
    (templateFields : List TemplateField) (k : String) :
    k ∈ (additionalEntries formData templateFields).map Prod.fst ↔
      (k ∈ formData.map Prod.fst ∧ k ≠ FILES_KEY ∧ k ∉ renderedKeys templateFields ∧
        strStartsWith k RESERVED_SIGNATURE_KEY = false) := by
  constructor
  · intro hk
    obtain ⟨p, hp, hfst⟩ := List.mem_map.mp hk
    obtain ⟨v, hmem, hkf, hnin, hst, _⟩ := (mem_additionalEntries _ _ _).mp hp
    subst hfst
    exact ⟨List.mem_map.mpr ⟨(p.1, v), hmem, rfl⟩, hkf, hnin, hst⟩
  · rintro ⟨hmm, hkf, hnin, hst⟩
    obtain ⟨q, hq, hfst⟩ := List.mem_map.mp hmm
    subst hfst
    refine List.mem_map.mpr ⟨(q.1, labelOf q.1 ++ LABEL_SEP ++ safeText q.2), ?_, rfl⟩
    refine (mem_additionalEntries _ _ _).mpr ⟨q.2, ?_, hkf, hnin, hst, rfl⟩
    simpa using hq

def NOTES_KEY : String := "notes"

def VALUE_HELLO : String := "hello"

/-- C6 (counterexample): a submission whose only key is the reserved `files`
key (holding the raw attachment array) produces an empty appendix even
though `files` matches no template field id and does not carry the
`signature_` prefix — the appendix does not list exactly the claimed keys. -/
theorem additional_data_files_key_counterexample :
    ([(FILES_KEY, JsValue.arr [])].map Prod.fst).contains FILES_KEY = true ∧
    (renderedKeys []).contains FILES_KEY = false ∧
    strStartsWith FILES_KEY RESERVED_SIGNATURE_KEY = false ∧
    additionalEntries [(FILES_KEY, JsValue.arr [])] [] = [] := by
  exact ⟨rfl, rfl, by decide, rfl⟩

/-- C6 (amended): the appendix lists exactly the submitted keys that match
no template field id, do not start with the reserved prefix `signature_`,
and are not the reserved attachment key `files` (which is stripped before
rendering); each entry is rendered `Label: value` with the label derived by
replacing underscores with spaces and upper-casing each word's first letter,
so an untracked key `notes` appears as `Notes`. -/
theorem additional_data_exact_keys (formData : List (String × JsValue))
    (templateFields : List TemplateField) (k : String) (v : JsValue) :
    (k ∈ (additionalEntries formData templateFields).map Prod.fst ↔
      (k ∈ formData.map Prod.fst ∧ k ≠ FILES_KEY ∧ k ∉ renderedKeys templateFields ∧
        strStartsWith k RESERVED_SIGNATURE_KEY = false)) ∧
    ((k, v) ∈ formData → k ≠ FILES_KEY → k ∉ renderedKeys templateFields →
      strStartsWith k RESERVED_SIGNATURE_KEY = false →
      (k, labelOf k ++ LABEL_SEP ++ safeText v)
        ∈ additionalEntries formData templateFields) ∧
    labelOf NOTES_KEY = "Notes" := by
  refine ⟨mem_additionalKeys formData templateFields k, ?_, by decide⟩
  intro hmem hkf hnin hst
  exact (mem_additionalEntries _ _ _).mpr ⟨v, hmem, hkf, hnin, hst, rfl⟩

/-- C6 (witness): the untracked key `notes` appears in the appendix labelled
`Notes`. -/
theorem additional_data_exact_keys_witness :
    (NOTES_KEY, labelOf NOTES_KEY ++ LABEL_SEP ++ safeText (JsValue.str VALUE_HELLO))
      ∈ additionalEntries [(NOTES_KEY, JsValue.str VALUE_HELLO)] [] ∧
    labelOf NOTES_KEY = "Notes" :=
  ⟨(additional_data_exact_keys [(NOTES_KEY, JsValue.str VALUE_HELLO)] [] NOTES_KEY
      (JsValue.str VALUE_HELLO)).2.1
      (List.mem_singleton.mpr rfl) (by decide) (by simp [renderedKeys]) (by decide),
   (additional_data_exact_keys [] [] NOTES_KEY JsValue.undefined).2.2⟩

/-! Attachment grouping (`attachmentsByField`). -/

/-- One entry of the submitted `files` array, with its optional `field` and
`fieldId` association properties. -/
structure AttachmentFile where
  field : JsValue := .undefined
  fieldId : JsValue := .undefined

/-- `const fieldKey = file?.field || file?.fieldId`. -/
def fieldKeyValue (file : AttachmentFile) : JsValue :=
  if file.field.truthy then file.field else file.fieldId

/-- Extensional model of the `attachmentsByField` Map of the source:
`get(key)` holds, in push order, exactly the files whose field key is truthy
(`if (!fieldKey) return` skips the rest) and stringifies
(`String(fieldKey)`) to `key`. -/
def attachmentsByFieldGet (attachments : List AttachmentFile) (key : String) :
    List AttachmentFile :=
  attachments.filter
    (fun file => (fieldKeyValue file).truthy && (jsToString (fieldKeyValue file) == key))

/-- C7 (amended): an attachment is in a field's group exactly when it is in
the submitted array with a truthy `field || fieldId` association whose
string form is that field id; in particular an attachment with neither
property is excluded from every group. -/
theorem attachments_grouping (attachments : List AttachmentFile) (key : String)
    (file : AttachmentFile) :
    (file ∈ attachmentsByFieldGet attachments key ↔
      (file ∈ attachments ∧ (fieldKeyValue file).truthy = true ∧
        jsToString (fieldKeyValue file) = key)) ∧
    (file.field = .undefined → file.fieldId = .undefined →
      file ∉ attachmentsByFieldGet attachments key) := by
  constructor
  · unfold attachmentsByFieldGet
    rw [List.mem_filter]
    simp [Bool.and_eq_true, beq_iff_eq, and_assoc]
  · intro h1 h2 hmem
    unfold attachmentsByFieldGet at hmem
    rw [List.mem_filter] at hmem
    obtain ⟨_, hp⟩ := hmem
    rw [Bool.and_eq_true] at hp
    obtain ⟨ht, _⟩ := hp
    rw [fieldKeyValue, h1, h2] at ht
    simp [JsValue.truthy] at ht

def FIVE : String := "5"

/-- An attachment associated to field id `5` through `fieldId`. -/
def fileWithId : AttachmentFile := ⟨.undefined, .str FIVE⟩

/-- An attachment with no field association at all. -/
def fileNoAssoc : AttachmentFile := ⟨.undefined, .undefined⟩

/-- C7 (witness): an attachment naming field `5` lands in that group; one
with no association is in no group. -/
theorem attachments_grouping_witness :
    fileWithId ∈ attachmentsByFieldGet [fileWithId] FIVE ∧
    fileNoAssoc ∉ attachmentsByFieldGet [fileNoAssoc] FIVE :=
  ⟨(attachments_grouping [fileWithId] FIVE fileWithId).1.mpr
      ⟨List.mem_singleton.mpr rfl,
       by simp [fieldKeyValue, fileWithId, JsValue.truthy, FIVE],
       by simp [fieldKeyValue, fileWithId, JsValue.truthy, jsToString]⟩,
   (attachments_grouping [fileNoAssoc] FIVE fileNoAssoc).2 rfl rfl⟩

def ZERO_KEY : String := "0"

/-- An attachment whose `fieldId` is the number `0` — a present but falsy
association. -/
def fileZeroId : AttachmentFile := ⟨.undefined, qv 0⟩

/-- C7 (counterexample): an attachment carrying `fieldId: 0` — a field
association property naming field id `"0"` — is nevertheless excluded from
that field's group, because `file?.field || file?.fieldId` is falsy for the
number 0 and the entry is skipped. -/
theorem attachment_falsy_key_counterexample :
    fileZeroId.fieldId = qv 0 ∧
    jsToString fileZeroId.fieldId = ZERO_KEY ∧
    attachmentsByFieldGet [fileZeroId] ZERO_KEY = [] := by
  refine ⟨rfl, ?_, ?_⟩
  · show jsToString (qv 0) = ZERO_KEY
    simp only [jsToString, qv, jsNumToString, qToString, ZERO_KEY, Rat.den_ofNat,
      Rat.num_ofNat, if_true]
    rfl
  · simp [attachmentsByFieldGet, fieldKeyValue, fileZeroId, qv, JsValue.truthy]

/-! The promise wiring of `generate`. -/

/-- Which event the output write stream fires. -/
inductive StreamEvent where
  | finish
  | error
deriving DecidableEq, Repr

/-- Settling of the promise returned by `generate`. -/
inductive GenerateResult where
  | resolved (path : String)
  | rejected
deriving DecidableEq, Repr

/-- Outcome model of `generate`'s effect wiring: `mkdirOk` abstracts the
awaited `fsp.mkdir` (whose failure rejects before the document is opened),
`setupOk` the `try/catch` around document construction and rendering, and
the stream event is whichever of `'finish'`/`'error'` the write stream
fires; only `stream.on('finish')` resolves, with the target path. -/
def generateOutcome (mkdirOk : Bool) (setupOk : Bool) (ev : StreamEvent)
    (targetPath : String) : GenerateResult :=
  if mkdirOk then
    if setupOk then
      match ev with
      | .finish => .resolved targetPath
      | .error => .rejected
    else .rejected
  else .rejected

/-- C8: the call resolves with the target path exactly when directory
creation and setup succeed and the stream reports `finish`; a stream error
or a directory-creation failure rejects the whole call, and a resolved call
never reports a path whose write did not complete. -/
theorem generate_resolves_iff_finish (mkdirOk setupOk : Bool) (ev : StreamEvent)
    (targetPath p : String) :
    (generateOutcome mkdirOk setupOk ev targetPath = .resolved p ↔
      (mkdirOk = true ∧ setupOk = true ∧ ev = .finish ∧ p = targetPath)) ∧
    (ev = .error → generateOutcome mkdirOk setupOk ev targetPath = .rejected) ∧
    (mkdirOk = false → generateOutcome mkdirOk setupOk ev targetPath = .rejected) := by
  cases mkdirOk <;> cases setupOk <;> cases ev <;>
    simp [generateOutcome, eq_comm]

def OUT_PATH : String := "generated/form.pdf"

/-- C8 (witness): a finished stream resolves with the path; an errored
stream rejects. -/
theorem generate_resolves_iff_finish_witness :
    generateOutcome true true .finish OUT_PATH = .resolved OUT_PATH ∧
    generateOutcome true true .error OUT_PATH = .rejected :=
  ⟨(generate_resolves_iff_finish true true .finish OUT_PATH OUT_PATH).1.mpr
      ⟨rfl, rfl, rfl, rfl⟩,
   (generate_resolves_iff_finish true true .error OUT_PATH OUT_PATH).2.1 rfl⟩

/-! The form editor's field sizing (`FormEditor.js`). -/

def MIN_FIELD_WIDTH : ℚ := 160

def MIN_FIELD_HEIGHT : ℚ := 56

def CHECKBOX_KIND : String := "checkbox"

def SIGNATURE_KIND : String := "signature"

def PHOTO_KIND : String := "photo"

/-- The editor's `FIELD_BASE_DIMENSIONS` lookup with its `default` entry. -/
def fieldBaseDimensions (ftype : String) : ℚ × ℚ :=
  if ftype == TEXT_KIND then (280, 72)
  else if ftype == CHECKBOX_KIND then (240, 56)
  else if ftype == SIGNATURE_KIND then (320, 160)
  else if ftype == PHOTO_KIND then (320, 200)
  else (260, 80)

/-- The editor's `parseDimension` — textually identical to the generator's
`parseNumeric`. -/
def parseDimension (value : JsValue) (fallback : ℚ) : JNum :=
  parseNumeric value fallback

/-- The editor's `resolveFieldSize`:
`Math.max(MIN_FIELD_SIZE.width, parseDimension(field?.size?.width ?? field?.width, base.width))`
and likewise for the height. -/
def resolveFieldSize (field : TemplateField) : JNum × JNum :=
  (JNum.jmax (.fin MIN_FIELD_WIDTH)
    (parseDimension field.sizeWidth (fieldBaseDimensions field.ftype).1),
   JNum.jmax (.fin MIN_FIELD_HEIGHT)
    (parseDimension field.sizeHeight (fieldBaseDimensions field.ftype).2))

/-- A JavaScript number is at least the bound (infinite values count as
larger than every bound; `NaN` and `-Infinity` count as failing it). -/
def jGE : JNum → ℚ → Prop
  | .fin a, q => q ≤ a
  | .inf, _ => True
  | .negInf, _ => False
  | .nan, _ => False

/-- C9 (amended): the minimum-size clamp lives in the form editor, not in
the render pipeline: `resolveFieldSize` never returns a width below 160px
nor a height below 56px (hence also never below 48px), for every field. -/
theorem resolveFieldSize_min_clamp (field : TemplateField) :
    jGE (resolveFieldSize field).1 MIN_FIELD_WIDTH ∧
    jGE (resolveFieldSize field).2 MIN_FIELD_HEIGHT ∧
    (48 : ℚ) ≤ MIN_FIELD_HEIGHT := by
  refine ⟨?_, ?_, by norm_num [MIN_FIELD_HEIGHT]⟩
  · have hnan := parseNumeric_ne_nan field.sizeWidth (fieldBaseDimensions field.ftype).1
    unfold resolveFieldSize parseDimension
    dsimp only
    cases hp : parseNumeric field.sizeWidth (fieldBaseDimensions field.ftype).1 with
    | fin q =>
        simp only [JNum.jmax, jGE]
        split
        · next hle => exact hle
        · exact le_rfl
    | inf => simp [JNum.jmax, jGE]
    | negInf => simp [JNum.jmax, jGE]
    | nan => exact absurd hp hnan
  · have hnan := parseNumeric_ne_nan field.sizeHeight (fieldBaseDimensions field.ftype).2
    unfold resolveFieldSize parseDimension
    dsimp only
    cases hp : parseNumeric field.sizeHeight (fieldBaseDimensions field.ftype).2 with
    | fin q =>
        simp only [JNum.jmax, jGE]
        split
        · next hle => exact hle
        · exact le_rfl
    | inf => simp [JNum.jmax, jGE]
    | negInf => simp [JNum.jmax, jGE]
    | nan => exact absurd hp hnan

/-- C9 (counterexample): the generator's render pipeline applies no clamp —
a 10 x 5 field is laid out as a 10 x 5 card, far below the claimed minimums
of 160 and 48. -/
theorem cardRect_no_clamp_counterexample :
    cardRect tinyField = ⟨.fin 0, .fin 0, .fin 10, .fin 5⟩ ∧
    ¬ (160 : ℚ) ≤ 10 ∧ ¬ (48 : ℚ) ≤ 5 := by
  refine ⟨rfl, by norm_num, by norm_num⟩

/-! Default substitution for missing or unparseable field geometry. -/

/-- C10 (amended): `parseNumeric` substitutes the fallback for absent
values, non-numeric values, non-finite number values, and strings that do
not parse to any number at all; a field descriptor carrying only an id and
a type renders as a 240 x 72 card at the canvas origin.  (Strings that
parse to an infinity are kept as such — see the counterexample.) -/
theorem parseNumeric_defaults (fallback : ℚ) :
    (parseNumeric .undefined fallback = .fin fallback) ∧
    (parseNumeric .null fallback = .fin fallback) ∧
    (∀ b, parseNumeric (.bool b) fallback = .fin fallback) ∧
    (parseNumeric (.num .nan) fallback = .fin fallback) ∧
    (parseNumeric (.num .inf) fallback = .fin fallback) ∧
    (parseNumeric (.num .negInf) fallback = .fin fallback) ∧
    (∀ s, parseFloatJs s = .nan → parseNumeric (.str s) fallback = .fin fallback) ∧
    (∀ id ftype req, cardRect ⟨id, ftype, req, .undefined, .undefined, .undefined, .undefined⟩
        = ⟨.fin 0, .fin 0, .fin 240, .fin 72⟩) := by
  refine ⟨rfl, rfl, fun b => rfl, rfl, rfl, rfl, ?_, fun id ftype req => rfl⟩
  intro s hs
  simp [parseNumeric, hs]

def NOT_A_NUMBER_STR : String := "abc"

/-- C10 (witness): the unparseable string `abc` falls back to the default
width 240. -/
theorem parseNumeric_defaults_witness :
    parseFloatJs NOT_A_NUMBER_STR = .nan ∧
    parseNumeric (.str NOT_A_NUMBER_STR) 240 = .fin 240 :=
  ⟨by decide,
   (parseNumeric_defaults 240).2.2.2.2.2.2.1 NOT_A_NUMBER_STR (by decide)⟩

/-- C10 (counterexample): the string `"Infinity"` is not parseable as a
finite number, yet `parseNumeric` keeps `Infinity` instead of substituting
the default 240 — the string branch only rejects `NaN`. -/
theorem parseNumeric_infinity_counterexample :
    parseNumeric (.str INFINITY_STR) 240 = .inf ∧ JNum.inf ≠ JNum.fin 240 := by
  exact ⟨by decide, fun h => JNum.noConfusion h⟩

end FormGen
